import Mathlib

/-!
Verification of the sap-chatflow backend core (intent routing and fuzzy
retrieval). The definitions below are a shallow embedding of the Express
backend found in the repository (the current server iteration, plus the
older backend iteration that contains the secondary parameter-extraction
helper). External collaborators (the Groq chat-completion API, the fuse.js
similarity engine, and JSON.parse) are modelled as explicit oracles:
a fuse.js index over a list is modelled as a scoring oracle together with
a stable sort by ascending score, which is the observable contract of
fuse.js search (every returned hit carries an item of the indexed list and
a score, best score first). Scores are rational numbers standing for the
similarity values in [0, 1].
-/

/-! ## JavaScript string primitives, modelled over character lists -/

/-- Model of the JavaScript whitespace class used by trim and the regex
class backslash-s, restricted to the usual ASCII whitespace characters. -/
def isJsSpace (c : Char) : Bool :=
  c = ' ' || c = '\t' || c = '\n' || c = '\r' || c = '\x0b' || c = '\x0c'

/-- `String.prototype.trim` on a character list. -/
def jsTrimList (cs : List Char) : List Char :=
  ((cs.dropWhile isJsSpace).reverse.dropWhile isJsSpace).reverse

/-- `String.prototype.trim`. -/
def jsTrim (s : String) : String := ⟨jsTrimList s.data⟩

/-- Occurrence of `needle` as a contiguous sublist of the list. -/
def hasSublist (needle : List Char) : List Char → Bool
  | [] => needle.isEmpty
  | c :: rest => needle.isPrefixOf (c :: rest) || hasSublist needle rest

/-- `String.prototype.includes`: substring occurrence. -/
def jsIncludes (hay needle : String) : Bool :=
  hasSublist needle.data hay.data

/-- `String.prototype.toLowerCase` (ASCII letters). -/
def jsToLower (s : String) : String := ⟨s.data.map Char.toLower⟩

/-- Longest digit prefix of a character list, as a number, if nonempty. -/
def digitsValue (cs : List Char) : Option Nat :=
  let ds := cs.takeWhile Char.isDigit
  if ds.isEmpty then none
  else some (ds.foldl (fun a c => a * 10 + (c.toNat - '0'.toNat)) 0)

/-- Model of JavaScript `parseInt(s, 10)`: skip leading whitespace, read an
optional sign and then the longest digit prefix; `none` models `NaN`. -/
def jsParseInt (s : String) : Option Int :=
  match s.data.dropWhile isJsSpace with
  | '+' :: rest => (digitsValue rest).map Int.ofNat
  | '-' :: rest => (digitsValue rest).map (fun n => -(Int.ofNat n))
  | rest => (digitsValue rest).map Int.ofNat

/-- Truthiness of an optional string parameter: JavaScript treats a missing
parameter (undefined/null) and the empty string as falsy. -/
def optTruthy : Option String → Bool
  | none => false
  | some s => s ≠ ""

/-! ## The fuse.js index, modelled as a scoring oracle plus a stable sort -/

/-- One search hit of a fuse.js index built with `includeScore: true`. -/
structure ScoredHit (α : Type) where
  item : α
  score : ℚ
deriving DecidableEq

/-- Stable insertion into a list sorted by ascending score. -/
def insertScored {α : Type} (x : ScoredHit α) : List (ScoredHit α) → List (ScoredHit α)
  | [] => [x]
  | y :: ys => if x.score < y.score then x :: y :: ys else y :: insertScored x ys

/-- Stable sort by ascending score (fuse.js returns best matches first). -/
def sortByScore {α : Type} : List (ScoredHit α) → List (ScoredHit α)
  | [] => []
  | x :: xs => insertScored x (sortByScore xs)

/-- Model of `new Fuse(records, opts).search(query)`: the scoring oracle
decides which records match the query (and with which similarity score,
already accounting for the configured threshold); the hits come back
sorted by ascending score. -/
def fuseSearch {α : Type} (score : α → String → Option ℚ) (records : List α)
    (query : String) : List (ScoredHit α) :=
  sortByScore (records.filterMap fun r => (score r query).map fun s => ⟨r, s⟩)

theorem mem_insertScored {α : Type} (x a : ScoredHit α) (l : List (ScoredHit α)) :
    a ∈ insertScored x l ↔ a = x ∨ a ∈ l := by
  induction l with
  | nil => simp [insertScored]
  | cons y ys ih =>
      by_cases h : x.score < y.score
      · simp [insertScored, h]
      · simp [insertScored, h, ih]
        tauto

theorem mem_sortByScore {α : Type} (a : ScoredHit α) (l : List (ScoredHit α)) :
    a ∈ sortByScore l ↔ a ∈ l := by
  induction l with
  | nil => simp [sortByScore]
  | cons x xs ih => simp [sortByScore, mem_insertScored, ih]

theorem mem_fuseSearch_item {α : Type} (score : α → String → Option ℚ)
    (records : List α) (query : String) (h : ScoredHit α)
    (hmem : h ∈ fuseSearch score records query) : h.item ∈ records := by
  rw [fuseSearch, mem_sortByScore] at hmem
  obtain ⟨r, hr, heq⟩ := List.mem_filterMap.mp hmem
  obtain ⟨s, _, heq'⟩ := Option.map_eq_some'.mp heq
  cases heq'
  exact hr

theorem sorted_insertScored {α : Type} (x : ScoredHit α) (l : List (ScoredHit α))
    (hl : l.Pairwise (fun a b => a.score ≤ b.score)) :
    (insertScored x l).Pairwise (fun a b => a.score ≤ b.score) := by
  induction l with
  | nil => simp [insertScored]
  | cons y ys ih =>
      rcases List.pairwise_cons.mp hl with ⟨hy, hys⟩
      by_cases h : x.score < y.score
      · rw [insertScored, if_pos h]
        refine List.pairwise_cons.mpr ⟨?_, hl⟩
        intro b hb
        rcases List.mem_cons.mp hb with hb | hb
        · exact le_of_lt (hb ▸ h)
        · exact le_trans (le_of_lt h) (hy b hb)
      · rw [insertScored, if_neg h]
        refine List.pairwise_cons.mpr ⟨?_, ih hys⟩
        intro b hb
        rcases (mem_insertScored x b ys).mp hb with hb | hb
        · exact hb ▸ (not_lt.mp h)
        · exact hy b hb

theorem sorted_sortByScore {α : Type} (l : List (ScoredHit α)) :
    (sortByScore l).Pairwise (fun a b => a.score ≤ b.score) := by
  induction l with
  | nil => simp [sortByScore]
  | cons x xs ih => exact sorted_insertScored x _ ih

theorem sorted_fuseSearch {α : Type} (score : α → String → Option ℚ)
    (records : List α) (query : String) :
    (fuseSearch score records query).Pairwise (fun a b => a.score ≤ b.score) :=
  sorted_sortByScore _

/-! ## Multi-item extraction (`extractMultipleItems`)

The server splits a material parameter on the regular expression
`\s+(?:and|or|,|&)\s+|,\s*` (case-insensitive), trims the pieces and drops
the empty ones, falling back to the trimmed whole string when nothing
survives. -/

/-- Case-insensitive literal match at the start of a list; returns the
remainder after the matched word. -/
def ciMatchRest : List Char → List Char → Option (List Char)
  | [], cs => some cs
  | _, [] => none
  | p :: ps, c :: cs => if c.toLower = p then ciMatchRest ps cs else none

/-- The delimiter alternatives `and | or | , | &` of the split regex, tried
in order (their first characters are pairwise distinct, so at most one can
start at a given position). -/
def keywordRest (cs : List Char) : Option (List Char) :=
  match ciMatchRest ['a', 'n', 'd'] cs with
  | some r => some r
  | none =>
    match ciMatchRest ['o', 'r'] cs with
    | some r => some r
    | none =>
      match ciMatchRest [','] cs with
      | some r => some r
      | none => ciMatchRest ['&'] cs

/-- First alternative of the split regex: `\s+(?:and|or|,|&)\s+`. Greedy
whitespace runs are maximal; no delimiter word starts with whitespace, so
maximal munch coincides with the backtracking semantics. -/
def matchDelimA (cs : List Char) : Option (List Char) :=
  match cs with
  | [] => none
  | c :: _ =>
    if isJsSpace c then
      match keywordRest (cs.dropWhile isJsSpace) with
      | some rest1 =>
        match rest1 with
        | d :: _ => if isJsSpace d then some (rest1.dropWhile isJsSpace) else none
        | [] => none
      | none => none
    else none

/-- A delimiter match of the full regex `\s+(?:and|or|,|&)\s+|,\s*` at the
start of the list, returning the remainder after the match. -/
def matchDelimAt (cs : List Char) : Option (List Char) :=
  match matchDelimA cs with
  | some r => some r
  | none =>
    match cs with
    | ',' :: rest => some (rest.dropWhile isJsSpace)
    | _ => none

/-- Left-to-right scan of `String.prototype.split` on the delimiter regex;
`fuel` bounds the recursion and is chosen large enough at the call site. -/
def splitItemsLoop : Nat → List Char → List Char → List (List Char)
  | 0, cs, acc => [acc.reverse ++ cs]
  | _ + 1, [], acc => [acc.reverse]
  | fuel + 1, c :: cs, acc =>
    match matchDelimAt (c :: cs) with
    | some rest => acc.reverse :: splitItemsLoop fuel rest []
    | none => splitItemsLoop fuel cs (c :: acc)

/-- `extractMultipleItems(itemString)` from the server: split on
conjunctions, commas and ampersands, trim, drop empties, and fall back to
the trimmed input when no piece survives. The empty string is falsy in
JavaScript and yields the empty list. -/
def extractMultipleItems (s : String) : List String :=
  if s = "" then []
  else
    let items := ((splitItemsLoop (s.data.length + 1) s.data []).map
        (fun p => (⟨jsTrimList p⟩ : String))).filter (fun p => p.length > 0)
    if items.isEmpty then [jsTrim s] else items

/-! ## Insertion-ordered deduplication

The server collects per-term search results in a JavaScript `Map` keyed by
record identity, inserting only unseen keys, and reads the values back in
insertion order. -/

/-- One `forEach` pass of the collection loop: fold the hits of one search
into the accumulated (seen keys, output) state. -/
def addUnique {α K : Type} [DecidableEq K] (key : α → K)
    (acc : List K × List α) (hits : List α) : List K × List α :=
  hits.foldl
    (fun acc x => if key x ∈ acc.1 then acc else (key x :: acc.1, acc.2 ++ [x]))
    acc

/-- The whole collection loop: per-term result lists folded into a `Map`
keyed by `key`, values read back in insertion order. -/
def mergeUnique {α K : Type} [DecidableEq K] (key : α → K)
    (lists : List (List α)) : List α :=
  (lists.foldl (addUnique key) ([], [])).2

/-- First-seen deduplication by key, given the keys already seen. This is
the specification-side reading of the `Map` loop. -/
def dedupSeen {α K : Type} [DecidableEq K] (key : α → K)
    (seen : List K) : List α → List α
  | [] => []
  | x :: xs =>
    if key x ∈ seen then dedupSeen key seen xs
    else x :: dedupSeen key (key x :: seen) xs

/-- First-seen deduplication by key ("merged by record identity,
preserving first-seen order" in the specification). -/
def dedupByKey {α K : Type} [DecidableEq K] (key : α → K) (l : List α) : List α :=
  dedupSeen key [] l

/-- Concatenation of the per-term result lists (the "union" of the
specification, before deduplication). -/
def concatAll {α : Type} : List (List α) → List α
  | [] => []
  | l :: ls => l ++ concatAll ls

/-- Keys seen after a first-seen deduplication pass, newest first. -/
def seenAfter {α K : Type} [DecidableEq K] (key : α → K)
    (seen : List K) (xs : List α) : List K :=
  ((dedupSeen key seen xs).map key).reverse ++ seen

theorem addUnique_eq_dedupSeen {α K : Type} [DecidableEq K] (key : α → K)
    (xs : List α) : ∀ (seen : List K) (out : List α),
    addUnique key (seen, out) xs =
      (seenAfter key seen xs, out ++ dedupSeen key seen xs) := by
  induction xs with
  | nil => intro seen out; simp [addUnique, dedupSeen, seenAfter]
  | cons x xs ih =>
      intro seen out
      by_cases h : key x ∈ seen
      · have : addUnique key (seen, out) (x :: xs) = addUnique key (seen, out) xs := by
          simp [addUnique, h]
        rw [this, ih, seenAfter, seenAfter, dedupSeen, if_pos h]
      · have : addUnique key (seen, out) (x :: xs) =
            addUnique key (key x :: seen, out ++ [x]) xs := by
          simp [addUnique, h]
        rw [this, ih, seenAfter, seenAfter, dedupSeen, if_neg h]
        simp

theorem dedupSeen_append {α K : Type} [DecidableEq K] (key : α → K)
    (xs ys : List α) : ∀ (seen : List K),
    dedupSeen key seen (xs ++ ys) =
      dedupSeen key seen xs ++ dedupSeen key (seenAfter key seen xs) ys := by
  induction xs with
  | nil => intro seen; simp [dedupSeen, seenAfter]
  | cons x xs ih =>
      intro seen
      by_cases h : key x ∈ seen
      · simpa [dedupSeen, h, seenAfter] using ih seen
      · simp [dedupSeen, h, seenAfter, ih (key x :: seen), List.append_assoc]

/-- The `Map`-based collection loop of the server equals first-seen
deduplication of the concatenated per-term result lists. -/
theorem mergeUnique_eq_dedup {α K : Type} [DecidableEq K] (key : α → K)
    (lists : List (List α)) :
    mergeUnique key lists = dedupByKey key (concatAll lists) := by
  suffices h : ∀ (seen : List K) (out : List α),
      lists.foldl (addUnique key) (seen, out) =
        (seenAfter key seen (concatAll lists),
         out ++ dedupSeen key seen (concatAll lists)) by
    rw [mergeUnique, h [] [], dedupByKey]
    simp
  induction lists with
  | nil => intro seen out; simp [concatAll, dedupSeen, seenAfter]
  | cons l ls ih =>
      intro seen out
      rw [List.foldl_cons, addUnique_eq_dedupSeen, ih, concatAll, dedupSeen_append]
      simp [Prod.ext_iff, seenAfter, List.append_assoc, dedupSeen_append]

theorem mem_dedupSeen {α K : Type} [DecidableEq K] (key : α → K)
    (l : List α) (x : α) :
    ∀ (seen : List K), x ∈ dedupSeen key seen l → x ∈ l := by
  induction l with
  | nil => intro seen h; simp [dedupSeen] at h
  | cons y ys ih =>
      intro seen h
      by_cases hy : key y ∈ seen
      · rw [dedupSeen, if_pos hy] at h
        exact List.mem_cons_of_mem _ (ih _ h)
      · rw [dedupSeen, if_neg hy] at h
        rcases List.mem_cons.mp h with h | h
        · exact h ▸ List.mem_cons_self _ _
        · exact List.mem_cons_of_mem _ (ih _ h)

theorem mem_dedupByKey {α K : Type} [DecidableEq K] (key : α → K)
    (l : List α) (x : α) (h : x ∈ dedupByKey key l) : x ∈ l :=
  mem_dedupSeen key l x [] h

theorem mem_concatAll {α : Type} (lists : List (List α)) (x : α)
    (h : x ∈ concatAll lists) : ∃ l ∈ lists, x ∈ l := by
  induction lists with
  | nil => simp [concatAll] at h
  | cons l ls ih =>
      rw [concatAll, List.mem_append] at h
      rcases h with h | h
      · exact ⟨l, List.mem_cons_self _ _, h⟩
      · obtain ⟨l', hl', hx⟩ := ih h
        exact ⟨l', List.mem_cons_of_mem _ hl', hx⟩

/-! ## Data model -/

/-- One stock record: the material id together with the fields of
`stock_level.json` displayed by the inventory table. The stock level is
kept as raw text and parsed defensively at filter time, as in the source. -/
structure StockRecord where
  Material : String
  Description : String
  stockLevel : String
  Plant : String
deriving DecidableEq

/-- One record of `sales_orders.json`. -/
structure SalesOrder where
  id : Nat
  customer : String
  material : String
  quantity : Int
  status : String
  value : Int
deriving DecidableEq

/-- One record of `purchase_orders.json`. -/
structure PurchaseOrder where
  id : Nat
  vendor : String
  material : String
  quantity : Int
  status : String
  value : Int
deriving DecidableEq

/-- One entry of `knowledge_base.json`. -/
structure KnowledgeEntry where
  term : String
  definition : String
deriving DecidableEq

/-! ## `query_inventory` -/

/-- Parameters of the `query_inventory` tool, each a JSON string or
absent. -/
structure InventoryParams where
  material_id : Option String
  comparison : Option String
  quantity : Option String

/-- The per-item search-and-collect loop of `query_inventory`: each
extracted item is searched independently and the hits are merged through a
`Map` keyed by `Material`, first seen wins. -/
def searchMultipleItems (search : String → List (ScoredHit StockRecord))
    (materialSearchTerm : String) : List StockRecord :=
  mergeUnique (fun r => r.Material)
    ((extractMultipleItems materialSearchTerm).map
      (fun item => (search item).map (fun r => r.item)))

/-- The material phase of `query_inventory`: search when a truthy
`material_id` is given, otherwise fall back to the whole stock list. -/
def inventoryMaterialPhase (search : String → List (ScoredHit StockRecord))
    (stockList : List StockRecord) (p : InventoryParams) : List StockRecord :=
  if optTruthy p.material_id then
    searchMultipleItems search (p.material_id.getD "")
  else stockList

/-- The inner numeric filter of `query_inventory`, applied once the
quantity has parsed: keeps records whose stock level parses and satisfies
the comparison; records with an unparseable stock level are dropped, and a
comparison naming neither direction keeps nothing. -/
def stockLevelFilter (comparison : String) (qty : Int)
    (inventory : List StockRecord) : List StockRecord :=
  inventory.filter fun item =>
    match jsParseInt item.stockLevel with
    | none => false
    | some itemStock =>
      if jsIncludes comparison "less" || jsIncludes comparison "<" then
        decide (itemStock < qty)
      else if jsIncludes comparison "more" || jsIncludes comparison "greater"
          || jsIncludes comparison ">" then
        decide (itemStock > qty)
      else false

/-- The numeric phase of `query_inventory`: runs only when both
`comparison` and `quantity` are truthy; a quantity that does not parse is
logged and skipped, leaving the inventory unchanged. -/
def inventoryNumericPhase (p : InventoryParams)
    (inventory : List StockRecord) : List StockRecord :=
  if optTruthy p.comparison && optTruthy p.quantity then
    match jsParseInt (p.quantity.getD "") with
    | some qty => stockLevelFilter (jsToLower (p.comparison.getD "")) qty inventory
    | none => inventory
  else inventory

/-- Column schema of the inventory table payload. -/
def stockColumns : List String := ["Material", "Description", "Stock Level", "Plant"]

/-! ## `get_sales_orders` and `get_purchase_orders` -/

/-- Parameters of the `get_sales_orders` tool. -/
structure SalesOrderParams where
  customer : Option String
  material : Option String
  status : Option String

/-- Parameters of the `get_purchase_orders` tool. -/
structure PurchaseOrderParams where
  vendor : Option String
  material : Option String
  status : Option String

/-- The filter pipeline of `get_sales_orders`: customer filter against the
startup index (keys customer and material), then a material filter whose ad
hoc index is built over the already-filtered subset (multi-item, merged by
order id), then a status filter whose ad hoc index is built over the
subset that survives the first two. -/
def salesOrdersFiltered
    (scoreCustomer scoreMaterial scoreStatus : SalesOrder → String → Option ℚ)
    (salesOrderData : List SalesOrder) (p : SalesOrderParams) : List SalesOrder :=
  let afterCustomer :=
    if optTruthy p.customer then
      (fuseSearch scoreCustomer salesOrderData (p.customer.getD "")).map
        (fun r => r.item)
    else salesOrderData
  let afterMaterial :=
    if optTruthy p.material then
      mergeUnique (fun o => o.id)
        ((extractMultipleItems (p.material.getD "")).map
          (fun m => (fuseSearch scoreMaterial afterCustomer m).map (fun r => r.item)))
    else afterCustomer
  if optTruthy p.status then
    (fuseSearch scoreStatus afterMaterial (p.status.getD "")).map (fun r => r.item)
  else afterMaterial

/-- The filter pipeline of `get_purchase_orders`, identical to the sales
pipeline with the vendor in place of the customer. -/
def purchaseOrdersFiltered
    (scoreVendor scoreMaterial scoreStatus : PurchaseOrder → String → Option ℚ)
    (purchaseOrderData : List PurchaseOrder) (p : PurchaseOrderParams) :
    List PurchaseOrder :=
  let afterVendor :=
    if optTruthy p.vendor then
      (fuseSearch scoreVendor purchaseOrderData (p.vendor.getD "")).map
        (fun r => r.item)
    else purchaseOrderData
  let afterMaterial :=
    if optTruthy p.material then
      mergeUnique (fun o => o.id)
        ((extractMultipleItems (p.material.getD "")).map
          (fun m => (fuseSearch scoreMaterial afterVendor m).map (fun r => r.item)))
    else afterVendor
  if optTruthy p.status then
    (fuseSearch scoreStatus afterMaterial (p.status.getD "")).map (fun r => r.item)
  else afterMaterial

/-- Display row of the sales-order table. -/
structure SalesRow where
  ID : Nat
  Customer : String
  Material : String
  Quantity : Int
  Status : String
  Value : Int
deriving DecidableEq

/-- Display row of the purchase-order table. -/
structure PurchaseRow where
  ID : Nat
  Vendor : String
  Material : String
  Quantity : Int
  Status : String
  Value : Int
deriving DecidableEq

/-- Mapping of a sales order onto its display row. -/
def salesRowOf (o : SalesOrder) : SalesRow :=
  ⟨o.id, o.customer, o.material, o.quantity, o.status, o.value⟩

/-- Mapping of a purchase order onto its display row. -/
def purchaseRowOf (o : PurchaseOrder) : PurchaseRow :=
  ⟨o.id, o.vendor, o.material, o.quantity, o.status, o.value⟩

/-- Column schema of the sales-order table payload. -/
def salesColumns : List String :=
  ["ID", "Customer", "Material", "Quantity", "Status", "Value"]

/-- Column schema of the purchase-order table payload. -/
def purchaseColumns : List String :=
  ["ID", "Vendor", "Material", "Quantity", "Status", "Value"]

/-! ## Knowledge-base lookup of the definition path -/

/-- The knowledge-base lookup of `get_sap_definition` in the current
server: the index is searched on the extracted term exactly as received,
the first three hits are taken, and those with a score at or above 0.6 are
dropped. -/
def kbTopResults (scoreKB : KnowledgeEntry → String → Option ℚ)
    (knowledgeData : List KnowledgeEntry) (searchTerm : String) :
    List (ScoredHit KnowledgeEntry) :=
  ((fuseSearch scoreKB knowledgeData searchTerm).take 3).filter
    (fun r => decide (r.score < mkRat 6 10))

/-- Whether the grounded branch of the definition path is taken: at least
one of the selected candidates survived the cutoff. -/
def kbGrounded (scoreKB : KnowledgeEntry → String → Option ℚ)
    (knowledgeData : List KnowledgeEntry) (searchTerm : String) : Bool :=
  !(kbTopResults scoreKB knowledgeData searchTerm).isEmpty

/-- The term normalization the specification describes for the KB lookup
(found in the older backend iteration as a replace of every
non-alphanumeric character by nothing followed by `toUpperCase`): strip
every character that is not a letter or digit
and fold to upper case. -/
def normalizeTerm (s : String) : String :=
  ⟨(s.data.filter (fun c => c.isAlpha || c.isDigit)).map Char.toUpper⟩

/-- The KB lookup as the specification words it: search on the normalized
term, then keep up to the top 3 candidates under the cutoff. -/
def kbTopResultsSpec (scoreKB : KnowledgeEntry → String → Option ℚ)
    (knowledgeData : List KnowledgeEntry) (searchTerm : String) :
    List (ScoredHit KnowledgeEntry) :=
  ((fuseSearch scoreKB knowledgeData (normalizeTerm searchTerm)).take 3).filter
    (fun r => decide (r.score < mkRat 6 10))

/-! ## The word-boundary test of the definition path

`/\b(process|how to|steps|procedure|way to)\b/i.test(originalUserQuery)` -/

/-- Word characters of the regex class backslash-w. -/
def isWordChar (c : Char) : Bool := c.isAlpha || c.isDigit || c = '_'

/-- Whether the pattern occurs at some position of the text with word
boundaries on both sides; `prev` is the character before the current
position. Text and pattern are expected lower-cased. -/
def boundaryOccursFrom (pat : List Char) (prev : Option Char) :
    List Char → Bool
  | [] => false
  | c :: rest =>
    (decide (prev = none ∨ ∃ p, prev = some p ∧ isWordChar p = false) &&
      pat.isPrefixOf (c :: rest) &&
      (match (c :: rest).drop pat.length with
       | [] => true
       | d :: _ => !isWordChar d)) ||
    boundaryOccursFrom pat (some c) rest

/-- Case-insensitive word-boundary occurrence of a phrase in a string. -/
def boundaryOccurs (s : String) (pat : String) : Bool :=
  boundaryOccursFrom pat.data none (jsToLower s).data

/-- The process-shape classifier of the definition path. -/
def askedForProcessTest (originalUserQuery : String) : Bool :=
  boundaryOccurs originalUserQuery "process" ||
  boundaryOccurs originalUserQuery "how to" ||
  boundaryOccurs originalUserQuery "steps" ||
  boundaryOccurs originalUserQuery "procedure" ||
  boundaryOccurs originalUserQuery "way to"

/-! ## JSON values and the decision parse -/

/-- JavaScript values the decision handling inspects. `jundefined` is the
`undefined` produced by a missing property; `JSON.parse` itself never
returns it. -/
inductive JsVal where
  | jundefined : JsVal
  | jnull : JsVal
  | jbool : Bool → JsVal
  | jnum : ℚ → JsVal
  | jstr : String → JsVal
  | jarr : List JsVal → JsVal
  | jobj : List (String × JsVal) → JsVal

/-- Association-list lookup with string keys, mirroring property lookup on
a parsed JSON object. -/
def jsLookup (k : String) : List (String × JsVal) → Option JsVal
  | [] => none
  | (k', v) :: rest => if k = k' then some v else jsLookup k rest

/-- Property access on a value that is not `null`/`undefined`: objects
yield the property or `undefined`; primitives and arrays yield
`undefined` for the property names the server reads. -/
def fieldOf (v : JsVal) (k : String) : JsVal :=
  match v with
  | .jobj fields => (jsLookup k fields).getD .jundefined
  | _ => .jundefined

/-- JavaScript truthiness. -/
def jsTruthy : JsVal → Bool
  | .jundefined => false
  | .jnull => false
  | .jbool b => b
  | .jnum q => decide (q ≠ 0)
  | .jstr s => decide (s ≠ "")
  | .jarr _ => true
  | .jobj _ => true

/-- Strict equality of a value with a string literal (`===`). -/
def jsStrEq (v : JsVal) (s : String) : Bool :=
  match v with
  | .jstr t => decide (t = s)
  | _ => false

/-- A JSON-string parameter, as the tool cases consume it: present when it
is a string, absent otherwise. -/
def optStr : JsVal → Option String
  | .jstr s => some s
  | _ => none

/-- Outcome of `JSON.parse` on the classifier reply, as an oracle. -/
inductive ParseOutcome where
  | parseFail : ParseOutcome
  | parsed : JsVal → ParseOutcome

/-- Result of one `callGroqLLM` invocation: the reply content, or the
error object the helper builds when the call fails. -/
inductive LlmResult where
  | content : String → LlmResult
  | failure : Nat → String → LlmResult

/-- The response payloads `res.json` sends for the tool results. -/
inductive ToolResult where
  | text : String → ToolResult
  | leaveForm : ToolResult
  | stockTable : List String → List StockRecord → ToolResult
  | salesTable : List String → List SalesRow → ToolResult
  | purchaseTable : List String → List PurchaseRow → ToolResult

/-- A complete response of the chat endpoint: a JSON payload or an error
status with an error message. -/
inductive ChatResponse where
  | ok : ToolResult → ChatResponse
  | err : Nat → String → ChatResponse

/-- The tool registry: name and declared parameter names of each tool (the
prose descriptions are consumed only by the language model). -/
structure ToolSpec where
  name : String
  paramNames : List String

/-- The `tools` array of the server. -/
def tools : List ToolSpec :=
  [⟨"get_sap_definition", ["term"]⟩,
   ⟨"show_leave_application_form", []⟩,
   ⟨"query_inventory", ["material_id", "comparison", "quantity"]⟩,
   ⟨"get_sales_orders", ["customer", "material", "status"]⟩,
   ⟨"get_purchase_orders", ["vendor", "material", "status"]⟩]

/-! ## The environment: datasets and external oracles -/

/-- Process state and external collaborators of one request: the datasets
loaded at startup, the scoring oracles of the startup and ad hoc fuse.js
indices, the `JSON.parse` oracle, and the language-model oracles (each
standing for `callGroqLLM` on the prompt built from exactly the listed
arguments). -/
structure Env where
  stockList : List StockRecord
  salesOrderData : List SalesOrder
  purchaseOrderData : List PurchaseOrder
  knowledgeData : List KnowledgeEntry
  scoreStock : StockRecord → String → Option ℚ
  scoreSalesOrder : SalesOrder → String → Option ℚ
  scoreSalesMaterial : SalesOrder → String → Option ℚ
  scoreSalesStatus : SalesOrder → String → Option ℚ
  scorePurchaseOrder : PurchaseOrder → String → Option ℚ
  scorePurchaseMaterial : PurchaseOrder → String → Option ℚ
  scorePurchaseStatus : PurchaseOrder → String → Option ℚ
  scoreKnowledge : KnowledgeEntry → String → Option ℚ
  jsonParse : String → ParseOutcome
  classify : String → LlmResult
  explain : String → String → Bool → List (ScoredHit KnowledgeEntry) → LlmResult
  clarifyUnknownTool : String → JsVal → LlmResult

/-! ## Tool execution -/

/-- The apology sent when the final explanation call of the definition
path fails. -/
def explainApology (searchTerm : String) : String :=
  "Sorry, I encountered an issue while trying to explain \x27" ++ searchTerm ++
    "\x27. Please try again."

/-- The `get_sap_definition` case: reject a falsy term with a prompt for
one; otherwise classify the question shape, look the raw term up in the
knowledge base, send the grounded or ungrounded prompt to the model and
wrap its reply (or the apology on failure) as a text payload. -/
def getSapDefinition (env : Env) (originalUserQuery : String)
    (term : Option String) : ToolResult :=
  if !optTruthy term then
    .text "Please tell me which SAP term or process you want explained."
  else
    let searchTerm := term.getD ""
    let askedForProcess := askedForProcessTest originalUserQuery
    let topResults := kbTopResults env.scoreKnowledge env.knowledgeData searchTerm
    match env.explain originalUserQuery searchTerm askedForProcess topResults with
    | .content s => if s ≠ "" then .text s else .text (explainApology searchTerm)
    | .failure _ _ => .text (explainApology searchTerm)

/-- The `query_inventory` case: material phase, numeric phase, table
payload with the fixed column schema. -/
def queryInventory (search : String → List (ScoredHit StockRecord))
    (stockList : List StockRecord) (p : InventoryParams) : ToolResult :=
  .stockTable stockColumns
    (inventoryNumericPhase p (inventoryMaterialPhase search stockList p))

/-- The `get_sales_orders` case: filter pipeline, then the mapping onto
display rows and the fixed column schema. -/
def getSalesOrders (env : Env) (p : SalesOrderParams) : ToolResult :=
  .salesTable salesColumns
    ((salesOrdersFiltered env.scoreSalesOrder env.scoreSalesMaterial
        env.scoreSalesStatus env.salesOrderData p).map salesRowOf)

/-- The `get_purchase_orders` case. -/
def getPurchaseOrders (env : Env) (p : PurchaseOrderParams) : ToolResult :=
  .purchaseTable purchaseColumns
    ((purchaseOrdersFiltered env.scorePurchaseOrder env.scorePurchaseMaterial
        env.scorePurchaseStatus env.purchaseOrderData p).map purchaseRowOf)

/-- The static apology of the unknown-tool fallback. -/
def rephraseApology : String :=
  "Sorry, I couldn\x27t process that request. Could you please rephrase?"

/-- The default switch case: ask the model for a clarification and fall
back to the static apology when that call fails or returns a falsy
reply. -/
def unknownToolText (env : Env) (originalUserQuery : String)
    (toolName : JsVal) : String :=
  match env.clarifyUnknownTool originalUserQuery toolName with
  | .content s => if s ≠ "" then s else rephraseApology
  | .failure _ _ => rephraseApology

/-- The tool `switch`: strict string comparison on `decision.tool_name`,
each case reading its parameters from the (defaulted) parameter object,
the default case degrading to the clarification text. -/
def dispatchTool (env : Env) (originalUserQuery : String)
    (toolName : JsVal) (paramsVal : JsVal) : ChatResponse :=
  if jsStrEq toolName "get_sap_definition" then
    .ok (getSapDefinition env originalUserQuery (optStr (fieldOf paramsVal "term")))
  else if jsStrEq toolName "show_leave_application_form" then
    .ok .leaveForm
  else if jsStrEq toolName "query_inventory" then
    .ok (queryInventory (fuseSearch env.scoreStock env.stockList) env.stockList
      ⟨optStr (fieldOf paramsVal "material_id"),
       optStr (fieldOf paramsVal "comparison"),
       optStr (fieldOf paramsVal "quantity")⟩)
  else if jsStrEq toolName "get_sales_orders" then
    .ok (getSalesOrders env
      ⟨optStr (fieldOf paramsVal "customer"),
       optStr (fieldOf paramsVal "material"),
       optStr (fieldOf paramsVal "status")⟩)
  else if jsStrEq toolName "get_purchase_orders" then
    .ok (getPurchaseOrders env
      ⟨optStr (fieldOf paramsVal "vendor"),
       optStr (fieldOf paramsVal "material"),
       optStr (fieldOf paramsVal "status")⟩)
  else
    .ok (.text (unknownToolText env originalUserQuery toolName))

/-- Whether the trimmed reply starts with an opening curly brace — the
test `decisionString.trim().startsWith(String.fromCharCode(123))` the
parse-failure branch applies. -/
def trimmedStartsWithBrace (s : String) : Bool :=
  match jsTrimList s.data with
  | c :: _ => c = '\x7b'
  | [] => false

/-- The content a text decision sends: `decision.content ||` fallback;
only string contents are modelled (the classifier is instructed to emit
strings). -/
def textContentOf (decision : JsVal) : String :=
  match fieldOf decision "content" with
  | .jstr s => if s ≠ "" then s else "Sorry, I couldn\x27t generate a response."
  | _ => "Sorry, I couldn\x27t generate a response."

/-- The message of the catch-all error handler of the endpoint. -/
def internalErrorMsg : String :=
  "An internal server error occurred processing your request."

/-- Decision handling: parse the classifier reply; on parse failure fall
back to the raw reply as text unless it looks like the start of a JSON
object, in which case report a failure; on success branch on the decision
shape. Reading a property of a parsed `null` throws and is caught by the
catch-all handler of the endpoint. -/
def handleDecision (env : Env) (originalUserQuery : String)
    (decisionString : String) : ChatResponse :=
  match env.jsonParse decisionString with
  | .parseFail =>
    if !trimmedStartsWithBrace decisionString then .ok (.text decisionString)
    else .err 500 "Failed to interpret AI decision."
  | .parsed .jnull => .err 500 internalErrorMsg
  | .parsed .jundefined => .err 500 internalErrorMsg
  | .parsed decision =>
    if jsStrEq (fieldOf decision "type") "tool_call" &&
        jsTruthy (fieldOf decision "tool_name") then
      dispatchTool env originalUserQuery (fieldOf decision "tool_name")
        (if jsTruthy (fieldOf decision "parameters")
         then fieldOf decision "parameters" else .jobj [])
    else if jsStrEq (fieldOf decision "type") "text" then
      .ok (.text (textContentOf decision))
    else
      .err 500 "Received an unexpected response format from the AI."

/-- `decisionResult.status || 500`. -/
def statusOr500 (n : Nat) : Nat := if n = 0 then 500 else n

/-- The request pipeline on one utterance: decision call, then decision
handling. -/
def chatPipeline (env : Env) (originalUserQuery : String) : ChatResponse :=
  match env.classify originalUserQuery with
  | .failure status msg => .err (statusOr500 status) msg
  | .content decisionString =>
    if decisionString = "" then
      .err 500 "AI service failed to provide a decision."
    else handleDecision env originalUserQuery decisionString

/-- One entry of the inbound `messageHistory`. -/
structure ChatMessage where
  sender : String
  text : String

/-- The chat endpoint: reject an empty history, then run the pipeline on
the text of the last entry — nothing else of the history is read. -/
def handleChat (env : Env) (messageHistory : List ChatMessage) : ChatResponse :=
  match messageHistory.getLast? with
  | none => .err 400 "Invalid messageHistory provided."
  | some lastMsg => chatPipeline env lastMsg.text

/-! ## The parameter merge of the older backend iteration

`parameters = { ...parameters, ...extractedParams }` after secondary
extraction. -/

/-- Object spread `(base, extra)`: every key of `extra` overrides the
`base` value, keys `extra` does not mention keep their `base` value. -/
def spreadMerge (base extra : List (String × JsVal)) : List (String × JsVal) :=
  base.filter (fun p => (jsLookup p.1 extra).isNone) ++ extra

/-! ## Specification-side filter definitions (for the refinement claims) -/

/-- A single fuzzy filter as the specification words it: when the
parameter is present, a fuzzy search scoped to the given subset; when it
is absent, the subset passes through. Used for the identity/name filter
and for the status filter. -/
def scopedFuzzyFilter {α : Type} (score : α → String → Option ℚ)
    (q : Option String) (pool : List α) : List α :=
  if optTruthy q then (fuseSearch score pool (q.getD "")).map (fun r => r.item)
  else pool

/-- The material filter as the specification words it: decompose the
parameter into terms, search each term against an index scoped to the
given subset, and merge the per-term results by record identity,
first-seen order preserved. -/
def materialFilterSpec {α K : Type} [DecidableEq K]
    (score : α → String → Option ℚ) (key : α → K)
    (q : Option String) (pool : List α) : List α :=
  if optTruthy q then
    dedupByKey key
      (concatAll ((extractMultipleItems (q.getD "")).map
        (fun m => (fuseSearch score pool m).map (fun r => r.item))))
  else pool

theorem scopedFuzzyFilter_subset {α : Type} (score : α → String → Option ℚ)
    (q : Option String) (pool : List α) (x : α)
    (h : x ∈ scopedFuzzyFilter score q pool) : x ∈ pool := by
  rw [scopedFuzzyFilter] at h
  by_cases hq : optTruthy q
  · rw [if_pos hq] at h
    obtain ⟨hit, hmem, hx⟩ := List.mem_map.mp h
    exact hx ▸ mem_fuseSearch_item _ _ _ _ hmem
  · rwa [if_neg hq] at h

theorem materialFilterSpec_subset {α K : Type} [DecidableEq K]
    (score : α → String → Option ℚ) (key : α → K)
    (q : Option String) (pool : List α) (x : α)
    (h : x ∈ materialFilterSpec score key q pool) : x ∈ pool := by
  rw [materialFilterSpec] at h
  by_cases hq : optTruthy q
  · rw [if_pos hq] at h
    obtain ⟨l, hl, hx⟩ := mem_concatAll _ _ (mem_dedupByKey _ _ _ h)
    obtain ⟨m, _, hlm⟩ := List.mem_map.mp hl
    subst hlm
    obtain ⟨hit, hmem, hx'⟩ := List.mem_map.mp hx
    exact hx' ▸ mem_fuseSearch_item _ _ _ _ hmem
  · rwa [if_neg hq] at h

/-! ## Claim C1 -/

/-- Sample stock records and a sample per-term search oracle used by the
witnesses. -/
def stockPump : StockRecord := ⟨"PUMP-1001", "Centrifugal pump", "50", "PL01"⟩

def stockBearing : StockRecord := ⟨"BRG-2002", "Ball bearing", "120", "PL01"⟩

def stockValve : StockRecord := ⟨"VLV-3003", "Gate valve", "x", "PL02"⟩

def sampleStockSearch : String → List (ScoredHit StockRecord) := fun t =>
  if t = "pumps" then [⟨stockPump, 1⟩, ⟨stockValve, 2⟩]
  else if t = "bearings" then [⟨stockBearing, 1⟩, ⟨stockPump, 3⟩]
  else []

/-- C1: for every non-empty material query, the inventory search splits
the query into terms, searches each term independently, and returns
exactly the first-seen-order deduplication (by `Material`) of the
concatenated per-term results; in particular "pumps and bearings" yields
the deduplicated union of searching "pumps" and searching "bearings". -/
theorem inventory_multi_item_union :
    (∀ (search : String → List (ScoredHit StockRecord)) (q : String), q ≠ "" →
      searchMultipleItems search q =
        dedupByKey (fun r => r.Material)
          (concatAll ((extractMultipleItems q).map
            (fun t => (search t).map (fun r => r.item))))) ∧
    ∀ (search : String → List (ScoredHit StockRecord)),
      searchMultipleItems search "pumps and bearings" =
        dedupByKey (fun r => r.Material)
          ((search "pumps").map (fun r => r.item) ++
            (search "bearings").map (fun r => r.item)) := by
  constructor
  · intro search q _
    exact mergeUnique_eq_dedup _ _
  · intro search
    rw [searchMultipleItems, mergeUnique_eq_dedup,
      show extractMultipleItems "pumps and bearings" = ["pumps", "bearings"]
        from by decide]
    simp [concatAll]

/-- Witness for C1 at a concrete query and oracle. -/
theorem inventory_multi_item_union_witness :
    ("pumps and bearings" ≠ "") ∧
    searchMultipleItems sampleStockSearch "pumps and bearings" =
      [stockPump, stockValve, stockBearing] :=
  ⟨by decide,
    (inventory_multi_item_union.1 sampleStockSearch "pumps and bearings"
      (by decide)).trans (by decide)⟩

/-! ## Claim C2 -/

/-- Sample orders and oracles for the order-lookup witnesses. -/
def soTech : SalesOrder := ⟨1, "TechCorp", "PUMP-1001", 10, "Open", 1000⟩

def soAcme : SalesOrder := ⟨2, "Acme", "BRG-2002", 5, "Delivered", 500⟩

def wScoreSalesCustomer : SalesOrder → String → Option ℚ := fun o q =>
  if o.customer = q then some 1 else none

def wScoreSalesMaterial : SalesOrder → String → Option ℚ := fun o q =>
  if o.material = q then some 1 else none

def wScoreSalesStatus : SalesOrder → String → Option ℚ := fun o q =>
  if o.status = q then some 1 else none

/-- C2: in both order lookups the three filters are applied in the fixed
order identity/name filter, then material filter, then status filter, each
fuzzy search scoped to the subset produced by the preceding filters, and
the result is contained in every intermediate stage (intersection-style
narrowing). -/
theorem order_lookup_filter_composition :
    (∀ (sc sm ss : SalesOrder → String → Option ℚ)
        (data : List SalesOrder) (p : SalesOrderParams),
      salesOrdersFiltered sc sm ss data p =
        scopedFuzzyFilter ss p.status
          (materialFilterSpec sm (fun o => o.id) p.material
            (scopedFuzzyFilter sc p.customer data)) ∧
      ∀ o ∈ salesOrdersFiltered sc sm ss data p,
        o ∈ materialFilterSpec sm (fun o => o.id) p.material
              (scopedFuzzyFilter sc p.customer data) ∧
        o ∈ scopedFuzzyFilter sc p.customer data ∧ o ∈ data) ∧
    ∀ (sv sm ss : PurchaseOrder → String → Option ℚ)
        (data : List PurchaseOrder) (p : PurchaseOrderParams),
      purchaseOrdersFiltered sv sm ss data p =
        scopedFuzzyFilter ss p.status
          (materialFilterSpec sm (fun o => o.id) p.material
            (scopedFuzzyFilter sv p.vendor data)) ∧
      ∀ o ∈ purchaseOrdersFiltered sv sm ss data p,
        o ∈ materialFilterSpec sm (fun o => o.id) p.material
              (scopedFuzzyFilter sv p.vendor data) ∧
        o ∈ scopedFuzzyFilter sv p.vendor data ∧ o ∈ data := by
  constructor
  · intro sc sm ss data p
    have heq : salesOrdersFiltered sc sm ss data p =
        scopedFuzzyFilter ss p.status
          (materialFilterSpec sm (fun o => o.id) p.material
            (scopedFuzzyFilter sc p.customer data)) := by
      simp only [salesOrdersFiltered, scopedFuzzyFilter, materialFilterSpec,
        mergeUnique_eq_dedup]
    refine ⟨heq, ?_⟩
    intro o ho
    rw [heq] at ho
    have h1 := scopedFuzzyFilter_subset ss p.status _ o ho
    have h2 := materialFilterSpec_subset sm (fun o => o.id) p.material _ o h1
    exact ⟨h1, h2, scopedFuzzyFilter_subset sc p.customer data o h2⟩
  · intro sv sm ss data p
    have heq : purchaseOrdersFiltered sv sm ss data p =
        scopedFuzzyFilter ss p.status
          (materialFilterSpec sm (fun o => o.id) p.material
            (scopedFuzzyFilter sv p.vendor data)) := by
      simp only [purchaseOrdersFiltered, scopedFuzzyFilter, materialFilterSpec,
        mergeUnique_eq_dedup]
    refine ⟨heq, ?_⟩
    intro o ho
    rw [heq] at ho
    have h1 := scopedFuzzyFilter_subset ss p.status _ o ho
    have h2 := materialFilterSpec_subset sm (fun o => o.id) p.material _ o h1
    exact ⟨h1, h2, scopedFuzzyFilter_subset sv p.vendor data o h2⟩

/-- Witness for C2: a concrete record that survives the composed filters,
with the membership hypothesis discharged on concrete data. -/
theorem order_lookup_filter_composition_witness :
    soTech ∈ materialFilterSpec wScoreSalesMaterial (fun o => o.id) none
        (scopedFuzzyFilter wScoreSalesCustomer (some "TechCorp") [soTech, soAcme]) ∧
    soTech ∈ scopedFuzzyFilter wScoreSalesCustomer (some "TechCorp")
        [soTech, soAcme] ∧
    soTech ∈ [soTech, soAcme] :=
  ((order_lookup_filter_composition.1 wScoreSalesCustomer wScoreSalesMaterial
      wScoreSalesStatus [soTech, soAcme]
      ⟨some "TechCorp", none, some "Open"⟩).2 soTech (by decide))

/-! ## Claim C3 -/

theorem take_filter_sorted {α : Type} (c : ℚ) (l : List (ScoredHit α)) :
    ∀ (n : Nat), l.Pairwise (fun a b => a.score ≤ b.score) →
      (l.take n).filter (fun r => decide (r.score < c)) =
        (l.filter (fun r => decide (r.score < c))).take n := by
  induction l with
  | nil => simp
  | cons x xs ih =>
      intro n hl
      rcases List.pairwise_cons.mp hl with ⟨hx, hxs⟩
      cases n with
      | zero => simp
      | succ n =>
          by_cases hP : x.score < c
          · simp [List.take_succ_cons, List.filter_cons, hP, ih n hxs]
          · have hnil : xs.filter (fun r => decide (r.score < c)) = [] := by
              refine List.filter_eq_nil_iff.mpr ?_
              intro a ha
              simpa using fun hc => hP (lt_of_le_of_lt (hx a ha) hc)
            have hnil2 : (xs.take n).filter (fun r => decide (r.score < c)) = [] := by
              refine List.filter_eq_nil_iff.mpr ?_
              intro a ha
              have ha' := List.take_subset n xs ha
              simpa using fun hc => hP (lt_of_le_of_lt (hx a ha') hc)
            simp [List.take_succ_cons, List.filter_cons, hP, hnil, hnil2]

/-- C3 (amended): the KB lookup of the definition path searches the index on
the raw extracted term — no normalization is applied — and selects up to
the 3 best-scored candidates whose score is below the 0.6 cutoff; the
grounded branch is taken exactly when at least one candidate under the
cutoff exists. -/
theorem kb_lookup_raw_term (scoreKB : KnowledgeEntry → String → Option ℚ)
    (kb : List KnowledgeEntry) (term : String) :
    kbTopResults scoreKB kb term =
      ((fuseSearch scoreKB kb term).filter
        (fun r => decide (r.score < mkRat 6 10))).take 3 ∧
    (kbGrounded scoreKB kb term = true ↔
      ∃ r ∈ fuseSearch scoreKB kb term, r.score < mkRat 6 10) := by
  have h := take_filter_sorted (mkRat 6 10) (fuseSearch scoreKB kb term) 3
    (sorted_fuseSearch scoreKB kb term)
  refine ⟨h, ?_⟩
  rw [kbGrounded, kbTopResults, h]
  simp [List.isEmpty_iff, List.take_eq_nil_iff, List.filter_eq_nil_iff]

/-- The knowledge entry of the C3 counterexample. -/
def kbS4 : KnowledgeEntry := ⟨"S4HANA", "The current SAP ERP suite."⟩

/-- A scoring oracle that matches only the normalized spelling of the
term: the index entry is found when queried with "S4HANA" and not when
queried with the raw user phrasing. -/
def wScoreKB : KnowledgeEntry → String → Option ℚ := fun _ q =>
  if q = "S4HANA" then some 0 else none

/-- Counterexample to C3 as stated: for the extracted term "s/4 hana" the
current server searches the knowledge base on the raw term, not on its
normalized form "S4HANA"; with an index that matches the normalized form
under the cutoff, the claimed lookup finds a candidate and would take the
grounded branch, while the code finds none and does not. -/
theorem kb_lookup_normalization_counterexample :
    normalizeTerm "s/4 hana" = "S4HANA" ∧
    kbTopResultsSpec wScoreKB [kbS4] "s/4 hana" = [⟨kbS4, 0⟩] ∧
    kbTopResults wScoreKB [kbS4] "s/4 hana" = [] ∧
    kbGrounded wScoreKB [kbS4] "s/4 hana" = false := by decide

/-! ## Claim C4 -/

/-- C4: the numeric post-filter with comparator "less than" keeps exactly
the records whose stock level parses and is strictly below the threshold;
records with an unparseable stock level are excluded; symmetrically for
"greater than". The filter is a total function: no input makes it
throw. -/
theorem numeric_filter_exact (inv : List StockRecord) (N : Int) (r : StockRecord) :
    (r ∈ stockLevelFilter "less than" N inv ↔
      r ∈ inv ∧ ∃ s, jsParseInt r.stockLevel = some s ∧ s < N) ∧
    (r ∈ stockLevelFilter "greater than" N inv ↔
      r ∈ inv ∧ ∃ s, jsParseInt r.stockLevel = some s ∧ N < s) := by
  have hl1 : jsIncludes "less than" "less" = true := by decide
  have hg1 : jsIncludes "greater than" "less" = false := by decide
  have hg2 : jsIncludes "greater than" "<" = false := by decide
  have hg3 : jsIncludes "greater than" "more" = false := by decide
  have hg4 : jsIncludes "greater than" "greater" = true := by decide
  constructor
  · rw [stockLevelFilter, List.mem_filter]
    cases h : jsParseInt r.stockLevel with
    | none => simp [h]
    | some s => simp [h, hl1]
  · rw [stockLevelFilter, List.mem_filter]
    cases h : jsParseInt r.stockLevel with
    | none => simp [h]
    | some s => simp [h, hg1, hg2, hg3, hg4]

/-! ## Claim C5 -/

/-- C5: with an empty or absent material query and no (applicable) numeric
filter, `query_inventory` returns the entire unfiltered stock dataset as a
table payload; being a total function, it never throws on a missing
parameter. -/
theorem empty_query_returns_all_stock
    (search : String → List (ScoredHit StockRecord))
    (stockList : List StockRecord) (p : InventoryParams)
    (hm : optTruthy p.material_id = false)
    (hn : (optTruthy p.comparison && optTruthy p.quantity) = false) :
    queryInventory search stockList p = .stockTable stockColumns stockList := by
  rw [queryInventory, inventoryMaterialPhase, if_neg (by simp [hm]),
    inventoryNumericPhase, if_neg (by simp [hn])]

/-- Witness for C5: a request with a missing material and an orphaned
quantity yields the full stock list. -/
theorem empty_query_returns_all_stock_witness :
    optTruthy (none : Option String) = false ∧
    (optTruthy (none : Option String) && optTruthy (some "5")) = false ∧
    queryInventory sampleStockSearch [stockPump, stockValve]
        ⟨none, none, some "5"⟩ =
      .stockTable stockColumns [stockPump, stockValve] :=
  ⟨by decide, by decide,
    empty_query_returns_all_stock sampleStockSearch [stockPump, stockValve]
      ⟨none, none, some "5"⟩ (by decide) (by decide)⟩

/-! ## Claim C10 -/

/-- C10: the numeric post-filter runs only when both `comparison` and
`quantity` are truthy; an unparseable quantity silently skips the filter,
leaving the matched set unchanged; a parseable quantity with a comparison
that names neither direction filters out every record, so the endpoint
returns an empty table. -/
theorem numeric_filter_gating (p : InventoryParams) (inv : List StockRecord) :
    ((optTruthy p.comparison && optTruthy p.quantity) = false →
      inventoryNumericPhase p inv = inv) ∧
    ((optTruthy p.comparison && optTruthy p.quantity) = true →
      jsParseInt (p.quantity.getD "") = none →
      inventoryNumericPhase p inv = inv) ∧
    ∀ (n : Int) (search : String → List (ScoredHit StockRecord))
      (stockList : List StockRecord),
      (optTruthy p.comparison && optTruthy p.quantity) = true →
      jsParseInt (p.quantity.getD "") = some n →
      jsIncludes (jsToLower (p.comparison.getD "")) "less" = false →
      jsIncludes (jsToLower (p.comparison.getD "")) "<" = false →
      jsIncludes (jsToLower (p.comparison.getD "")) "more" = false →
      jsIncludes (jsToLower (p.comparison.getD "")) "greater" = false →
      jsIncludes (jsToLower (p.comparison.getD "")) ">" = false →
      inventoryNumericPhase p inv = [] ∧
      queryInventory search stockList p = .stockTable stockColumns [] := by
  refine ⟨?_, ?_, ?_⟩
  · intro h
    rw [inventoryNumericPhase, if_neg (by simp [h])]
  · intro h hq
    rw [inventoryNumericPhase, if_pos (by simp [h]), hq]
  · intro n search stockList h hq c1 c2 c3 c4 c5
    have hfilter : ∀ (l : List StockRecord),
        stockLevelFilter (jsToLower (p.comparison.getD "")) n l = [] := by
      intro l
      refine List.filter_eq_nil_iff.mpr ?_
      intro a _
      cases jsParseInt a.stockLevel with
      | none => simp
      | some s => simp [c1, c2, c3, c4, c5]
    constructor
    · rw [inventoryNumericPhase, if_pos (by simp [h]), hq]
      exact hfilter inv
    · rw [queryInventory, inventoryNumericPhase, if_pos (by simp [h]), hq]
      exact congrArg (ToolResult.stockTable stockColumns)
        (hfilter (inventoryMaterialPhase search stockList p))

/-- Witness for C10: the three gating behaviours at concrete inputs — an
absent comparison leaves the set unchanged, an unparseable quantity leaves
it unchanged, and an "equal to" comparison with a parseable quantity
empties the table. -/
theorem numeric_filter_gating_witness :
    inventoryNumericPhase ⟨none, none, some "5"⟩ [stockPump] = [stockPump] ∧
    inventoryNumericPhase ⟨none, some "less than", some "abc"⟩ [stockPump] =
      [stockPump] ∧
    inventoryNumericPhase ⟨none, some "equal to", some "5"⟩ [stockPump] = [] ∧
    queryInventory sampleStockSearch [stockPump, stockBearing]
        ⟨none, some "equal to", some "5"⟩ =
      .stockTable stockColumns [] :=
  ⟨(numeric_filter_gating ⟨none, none, some "5"⟩ [stockPump]).1 (by decide),
   (numeric_filter_gating ⟨none, some "less than", some "abc"⟩ [stockPump]).2.1
     (by decide) (by decide),
   ((numeric_filter_gating ⟨none, some "equal to", some "5"⟩ [stockPump]).2.2 5
     sampleStockSearch [stockPump, stockBearing] (by decide) (by decide)
     (by decide) (by decide) (by decide) (by decide) (by decide)).1,
   ((numeric_filter_gating ⟨none, some "equal to", some "5"⟩
       [stockPump, stockBearing]).2.2 5
     sampleStockSearch [stockPump, stockBearing] (by decide) (by decide)
     (by decide) (by decide) (by decide) (by decide) (by decide)).2⟩

/-! ## Claim C6 -/

/-- A concrete environment for the witnesses: small datasets, oracles that
match nothing, a failing language model, and a `JSON.parse` that fails
(the classifier replied with plain prose). -/
def wEnv : Env where
  stockList := [stockPump, stockBearing]
  salesOrderData := [soTech, soAcme]
  purchaseOrderData := []
  knowledgeData := [kbS4]
  scoreStock := fun _ _ => none
  scoreSalesOrder := fun _ _ => none
  scoreSalesMaterial := fun _ _ => none
  scoreSalesStatus := fun _ _ => none
  scorePurchaseOrder := fun _ _ => none
  scorePurchaseMaterial := fun _ _ => none
  scorePurchaseStatus := fun _ _ => none
  scoreKnowledge := fun _ _ => none
  jsonParse := fun _ => .parseFail
  classify := fun _ => .failure 500 "service unavailable"
  explain := fun _ _ _ _ => .failure 500 "service unavailable"
  clarifyUnknownTool := fun _ _ => .failure 500 "service unavailable"

/-- C6: when the classifier reply does not deserialize as a text decision
or a tool-call decision, the endpoint returns the raw reply as a text
response exactly when the reply is not JSON-like (it neither parsed as
JSON nor starts, after trimming, with an opening brace); in every other
such case it reports a failure, and it never turns such a reply into a
tool call — the response is the raw-text fallback or an error, nothing
else. -/
theorem classifier_reply_fallback (env : Env) (q s : String)
    (hfail : env.jsonParse s = .parseFail ∨
      ∃ d, env.jsonParse s = .parsed d ∧
        (jsStrEq (fieldOf d "type") "tool_call" &&
          jsTruthy (fieldOf d "tool_name")) = false ∧
        jsStrEq (fieldOf d "type") "text" = false) :
    ((handleDecision env q s = .ok (.text s)) ↔
      (env.jsonParse s = .parseFail ∧ trimmedStartsWithBrace s = false)) ∧
    (handleDecision env q s = .ok (.text s) ∨
      ∃ code msg, handleDecision env q s = .err code msg) := by
  rcases hfail with hp | ⟨d, hp, hshape, htext⟩
  · by_cases hb : trimmedStartsWithBrace s
    · refine ⟨?_, Or.inr ⟨500, "Failed to interpret AI decision.", ?_⟩⟩ <;>
        simp [handleDecision, hp, hb]
    · refine ⟨?_, Or.inl ?_⟩ <;> simp [handleDecision, hp, hb]
  · cases d with
    | jnull =>
        refine ⟨?_, Or.inr ⟨500, internalErrorMsg, ?_⟩⟩ <;>
          simp [handleDecision, hp]
    | jundefined =>
        refine ⟨?_, Or.inr ⟨500, internalErrorMsg, ?_⟩⟩ <;>
          simp [handleDecision, hp]
    | jbool b =>
        refine ⟨?_, Or.inr ⟨500,
          "Received an unexpected response format from the AI.", ?_⟩⟩ <;>
          simp [handleDecision, hp, hshape, htext]
    | jnum n =>
        refine ⟨?_, Or.inr ⟨500,
          "Received an unexpected response format from the AI.", ?_⟩⟩ <;>
          simp [handleDecision, hp, hshape, htext]
    | jstr t =>
        refine ⟨?_, Or.inr ⟨500,
          "Received an unexpected response format from the AI.", ?_⟩⟩ <;>
          simp [handleDecision, hp, hshape, htext]
    | jarr elems =>
        refine ⟨?_, Or.inr ⟨500,
          "Received an unexpected response format from the AI.", ?_⟩⟩ <;>
          simp [handleDecision, hp, hshape, htext]
    | jobj fields =>
        refine ⟨?_, Or.inr ⟨500,
          "Received an unexpected response format from the AI.", ?_⟩⟩ <;>
          simp [handleDecision, hp, hshape, htext]

/-- Witness for C6: a prose reply that fails to parse comes back verbatim
as the text response. -/
theorem classifier_reply_fallback_witness :
    ((handleDecision wEnv "hello" "Happy to help!" =
        .ok (.text "Happy to help!")) ↔
      (wEnv.jsonParse "Happy to help!" = .parseFail ∧
        trimmedStartsWithBrace "Happy to help!" = false)) ∧
    (handleDecision wEnv "hello" "Happy to help!" = .ok (.text "Happy to help!") ∨
      ∃ code msg, handleDecision wEnv "hello" "Happy to help!" = .err code msg) :=
  classifier_reply_fallback wEnv "hello" "Happy to help!" (Or.inl rfl)

/-! ## Claim C7 -/

theorem jsLookup_append (k : String) (l1 l2 : List (String × JsVal)) :
    jsLookup k (l1 ++ l2) =
      match jsLookup k l1 with
      | some v => some v
      | none => jsLookup k l2 := by
  induction l1 with
  | nil => simp [jsLookup]
  | cons p rest ih =>
      obtain ⟨k', v⟩ := p
      by_cases h : k = k'
      · simp [jsLookup, h]
      · simp [jsLookup, h, ih]

theorem jsLookup_filter_none (k : String) (extra base : List (String × JsVal))
    (h : jsLookup k extra = none) :
    jsLookup k (base.filter (fun p => (jsLookup p.1 extra).isNone)) =
      jsLookup k base := by
  induction base with
  | nil => rfl
  | cons p rest ih =>
      obtain ⟨k', v⟩ := p
      by_cases hk : k = k'
      · subst hk
        simp [List.filter_cons, h, jsLookup]
      · by_cases hkeep : (jsLookup k' extra).isNone <;>
          simp [List.filter_cons, hkeep, jsLookup, hk, ih]

theorem jsLookup_filter_some (k : String) (v : JsVal)
    (extra base : List (String × JsVal)) (h : jsLookup k extra = some v) :
    jsLookup k (base.filter (fun p => (jsLookup p.1 extra).isNone)) = none := by
  induction base with
  | nil => rfl
  | cons p rest ih =>
      obtain ⟨k', v'⟩ := p
      by_cases hk : k = k'
      · subst hk
        simp [List.filter_cons, h, ih]
      · by_cases hkeep : (jsLookup k' extra).isNone <;>
          simp [List.filter_cons, hkeep, jsLookup, hk, ih]

/-- C7: the spread merge of the secondary-extraction results into the
existing parameter set gives the secondary value for every key the
extraction emitted and keeps the original value for every key it did not
address. -/
theorem parameter_merge_precedence (base extra : List (String × JsVal))
    (k : String) :
    (∀ v, jsLookup k extra = some v →
      jsLookup k (spreadMerge base extra) = some v) ∧
    (jsLookup k extra = none →
      jsLookup k (spreadMerge base extra) = jsLookup k base) := by
  constructor
  · intro v hv
    rw [spreadMerge, jsLookup_append, jsLookup_filter_some k v extra base hv]
    exact hv
  · intro h
    rw [spreadMerge, jsLookup_append, jsLookup_filter_none k extra base h]
    cases hx : jsLookup k base <;> simp [hx, h]

/-- Classifier-pass parameters of the C7 witness. -/
def wBaseParams : List (String × JsVal) :=
  [("material_id", .jstr "pumps"), ("comparison", .jstr "less than")]

/-- Secondary-extraction output of the C7 witness: it re-extracted the
material (emitting a fuller value) and emitted an explicit null quantity;
it did not address the comparison. -/
def wExtraParams : List (String × JsVal) :=
  [("material_id", .jstr "pumps and bearings"), ("quantity", .jnull)]

/-- Witness for C7: the re-extracted material wins, the untouched
comparison keeps its classifier value. -/
theorem parameter_merge_precedence_witness :
    jsLookup "material_id" (spreadMerge wBaseParams wExtraParams) =
      some (.jstr "pumps and bearings") ∧
    jsLookup "comparison" (spreadMerge wBaseParams wExtraParams) =
      jsLookup "comparison" wBaseParams :=
  ⟨(parameter_merge_precedence wBaseParams wExtraParams "material_id").1
      (.jstr "pumps and bearings") rfl,
    (parameter_merge_precedence wBaseParams wExtraParams "comparison").2 rfl⟩

/-! ## Claim C8 -/

/-- C8: a tool-call decision whose tool name is not the name of any tool
in the registry reaches the default switch case and degrades to the
clarification text payload — for every environment, including one whose
fallback model call fails; the request is answered, not failed. -/
theorem unknown_tool_degrades (env : Env) (q : String)
    (toolName paramsVal : JsVal)
    (hunknown : ∀ t ∈ tools, jsStrEq toolName t.name = false) :
    dispatchTool env q toolName paramsVal =
      .ok (.text (unknownToolText env q toolName)) := by
  have h1 := hunknown ⟨"get_sap_definition", ["term"]⟩ (by simp [tools])
  have h2 := hunknown ⟨"show_leave_application_form", []⟩ (by simp [tools])
  have h3 := hunknown ⟨"query_inventory", ["material_id", "comparison", "quantity"]⟩
    (by simp [tools])
  have h4 := hunknown ⟨"get_sales_orders", ["customer", "material", "status"]⟩
    (by simp [tools])
  have h5 := hunknown ⟨"get_purchase_orders", ["vendor", "material", "status"]⟩
    (by simp [tools])
  simp only [dispatchTool, h1, h2, h3, h4, h5, Bool.false_eq_true, if_false]

/-- Witness for C8: an unregistered tool name with a failing fallback
model still yields the static clarification text. -/
theorem unknown_tool_degrades_witness :
    (∀ t ∈ tools, jsStrEq (.jstr "cast_spell") t.name = false) ∧
    dispatchTool wEnv "do magic" (.jstr "cast_spell") (.jobj []) =
      .ok (.text rephraseApology) :=
  ⟨by decide,
    (unknown_tool_degrades wEnv "do magic" (.jstr "cast_spell") (.jobj [])
      (by decide)).trans rfl⟩

/-! ## Claim C9 -/

/-- C9: the endpoint reads nothing of the inbound history but the text of
its last entry — two requests whose histories end in the same text produce
the same response, whatever their earlier entries and sender fields. -/
theorem last_entry_determines_response (env : Env)
    (h1 h2 : List ChatMessage) (m1 m2 : ChatMessage)
    (e1 : h1.getLast? = some m1) (e2 : h2.getLast? = some m2)
    (et : m1.text = m2.text) :
    handleChat env h1 = handleChat env h2 := by
  rw [handleChat, handleChat, e1, e2]
  simp only []
  rw [et]

/-- Witness for C9: a one-message history and a longer history with a
different sender but the same final text get identical responses. -/
theorem last_entry_determines_response_witness :
    handleChat wEnv [⟨"user", "show stock"⟩] =
      handleChat wEnv [⟨"assistant", "hi there"⟩, ⟨"operator", "show stock"⟩] :=
  last_entry_determines_response wEnv _ _ ⟨"user", "show stock"⟩
    ⟨"operator", "show stock"⟩ rfl rfl rfl
